import Mathlib

set_option maxHeartbeats 1000000

namespace ProjectToSingleFile

/-- Characters removed by Python `str.lstrip()` (the ASCII whitespace set). -/
def py_is_space (c : Char) : Bool :=
  c == ' ' || c == '\t' || c == '\n' || c == '\r' || c == '\x0b' || c == '\x0c'

/-- Python `s.lstrip()`: drop leading whitespace characters. -/
def py_lstrip (s : String) : String :=
  String.mk (s.data.dropWhile py_is_space)

/-- Python `s.startswith(p)` on whole strings. -/
def py_startswith (s p : String) : Bool :=
  p.data.isPrefixOf s.data

/-- Python `s.endswith(p)` on whole strings. -/
def py_endswith (s p : String) : Bool :=
  p.data.isSuffixOf s.data

/-- Python `os.path.join(p, f)` for two components. -/
def pjoin (p f : String) : String :=
  if py_startswith f "/" then f
  else if p = "" then f
  else if py_endswith p "/" then p ++ f
  else p ++ "/" ++ f

/-- Runtime shape of the `inline_comment` configuration value as `handle_file`
sees it (`src/main.py` line 137): either an actual string, or a value of any
other runtime type (the dataclass annotation allows `Dict[str, str]`). -/
inductive PyStr where
  | str : String → PyStr
  | nonStr : PyStr
deriving DecidableEq

/-- Configuration fields of `Config` (src/main.py lines 18-38) that the
traversal in `FileMerger` reads. `block_comment_open` and
`block_comment_close` model the entries `block_comment['open']` and
`block_comment['close']`. Path-assembly fields (output dir, filename,
extension) only affect `start`, which is not needed for the walk itself. -/
structure Config where
  skip_folders : List String
  skip_files : List String
  allowed_extensions : List String
  block_comment_open : String
  block_comment_close : String
  inline_comment : PyStr

/-- Filesystem entry as the walker observes it. A `file` carries the lines
that `read_file` successfully delivers (each line keeps its trailing newline,
as Python file iteration does) and a flag recording whether an `IOError`
occurred while opening or reading it (after the listed lines were delivered);
the flag only affects logging in the source. A `dir` carries its listing, or
`none` when `os.listdir` fails with an `OSError`. -/
inductive Entry where
  | file : String → List String → Bool → Entry
  | dir : String → Option (List Entry) → Entry

/-- Error that can escape the generator pipeline: the `TypeError` raised at
src/main.py line 140 when `inline_comment` is not a string. -/
inductive MergeErr where
  | typeError
deriving DecidableEq

/-- Lines yielded by `FileMerger.read_file` (src/main.py lines 163-179): the
delivered lines of a file (an `IOError`, before or during reading, is caught
inside `read_file` and only logged), and nothing for a directory (opening a
directory raises `IsADirectoryError`, an `OSError = IOError`, also caught). -/
def read_file : Entry → List String
  | Entry.file _ lines _ => lines
  | Entry.dir _ _ => []

/-- `FileMerger.go_to_next_file` (src/main.py lines 148-161): skip the name
unless it ends with some allowed extension, and skip it when it is listed in
`skip_files`. -/
def go_to_next_file (cfg : Config) (file : String) : Bool :=
  !(cfg.allowed_extensions.any (fun ext => py_endswith file ext))
    || cfg.skip_files.contains file

/-- Test at src/main.py line 143: the line, left-stripped, starts with the
inline-comment marker. -/
def is_comment_only_line (marker line : String) : Bool :=
  py_startswith (py_lstrip line) marker

/-- Header string yielded at src/main.py lines 129-133: fence, block-comment
open token, `file:` line with the joined path, block-comment close token. -/
def header_str (cfg : Config) (new_file : String) : String :=
  "```\n" ++ cfg.block_comment_open ++ "\nfile: " ++ new_file ++ "\n"
    ++ cfg.block_comment_close ++ "\n"

/-- Footer string yielded at src/main.py line 146. -/
def footer_str : String := "\n```\n\n"

/-- Rendering part of `FileMerger.handle_file` (src/main.py lines 129-146),
reached once the skip checks have passed: yield the header, then check that
`inline_comment` is a string, raising `TypeError` otherwise (the header has
already been yielded; `read_file` is a generator, created but not yet run at
that point), then yield the non-comment lines delivered by `read_file`, then
the footer. -/
def render_file (cfg : Config) (new_file : String) (raw : List String) :
    List String × Option MergeErr :=
  match cfg.inline_comment with
  | PyStr.nonStr => ([header_str cfg new_file], some MergeErr.typeError)
  | PyStr.str marker =>
      (header_str cfg new_file
         :: raw.filter (fun l => !is_comment_only_line marker l)
         ++ [footer_str], none)

mutual

/-- `FileMerger.handle_file` (src/main.py lines 107-146). Checks
`skip_folders` membership of the entry name first; recurses when the entry is
a directory (an error raised inside the recursion propagates through
`yield from`, aborting with the lines yielded so far); then applies
`go_to_next_file` and, when the name is eligible, renders the entry
(`read_file` delivers nothing for a directory). -/
def handle_file (cfg : Config) (path : String) (e : Entry) :
    List String × Option MergeErr :=
  match e with
  | Entry.file name lines rerr =>
      if cfg.skip_folders.contains name then ([], none)
      else if go_to_next_file cfg name then ([], none)
      else render_file cfg (pjoin path name) (read_file (Entry.file name lines rerr))
  | Entry.dir name listing =>
      if cfg.skip_folders.contains name then ([], none)
      else
        let r := walk_directory cfg path name listing
        match r.2 with
        | some er => (r.1, some er)
        | none =>
            if go_to_next_file cfg name then (r.1, none)
            else
              let t := render_file cfg (pjoin path name) (read_file (Entry.dir name listing))
              (r.1 ++ t.1, t.2)

/-- `FileMerger.walk_directory` (src/main.py lines 84-105): join the path,
list the directory (on `OSError` log and yield nothing), and handle each
listed entry in order. -/
def walk_directory (cfg : Config) (path : String) (d : String)
    (listing : Option (List Entry)) : List String × Option MergeErr :=
  match listing with
  | none => ([], none)
  | some files => walk_entries cfg (pjoin path d) files

/-- Loop at src/main.py lines 104-105: `yield from handle_file` for each
entry of the listing, in listing order; an exception escaping `handle_file`
aborts the loop with the lines yielded so far. -/
def walk_entries (cfg : Config) (path : String) (es : List Entry) :
    List String × Option MergeErr :=
  match es with
  | [] => ([], none)
  | e :: rest =>
      let r := handle_file cfg path e
      match r.2 with
      | some er => (r.1, some er)
      | none =>
          let r2 := walk_entries cfg path rest
          (r.1 ++ r2.1, r2.2)

end

/-- Record of one rendered header/content/footer group: the joined path shown
in its header, the lines `read_file` delivers for it, and whether the rendered
entry was a regular file (`true`) or a directory rendered through the latent
edge case (`false`). -/
structure Block where
  path : String
  raw : List String
  isFile : Bool
deriving DecidableEq

/-- Output lines of one rendered block when the inline-comment marker is the
string `marker`: header, the non-comment delivered lines, footer. -/
def block_lines (cfg : Config) (marker : String) (b : Block) : List String :=
  header_str cfg b.path
    :: b.raw.filter (fun l => !is_comment_only_line marker l)
    ++ [footer_str]

mutual

/-- Blocks rendered by `handle_file`, in the order their headers are
yielded: same recursion and checks as `handle_file`, recording one `Block`
per rendered entry instead of the yielded strings. -/
def handle_file_blocks (cfg : Config) (path : String) (e : Entry) :
    List Block :=
  match e with
  | Entry.file name lines rerr =>
      if cfg.skip_folders.contains name then []
      else if go_to_next_file cfg name then []
      else [⟨pjoin path name, read_file (Entry.file name lines rerr), true⟩]
  | Entry.dir name listing =>
      if cfg.skip_folders.contains name then []
      else
        walk_directory_blocks cfg path name listing
          ++ (if go_to_next_file cfg name then []
              else [⟨pjoin path name, read_file (Entry.dir name listing), false⟩])

/-- Blocks rendered while walking one directory, mirroring
`walk_directory`. -/
def walk_directory_blocks (cfg : Config) (path : String) (d : String)
    (listing : Option (List Entry)) : List Block :=
  match listing with
  | none => []
  | some files => walk_entries_blocks cfg (pjoin path d) files

/-- Blocks rendered while handling a list of sibling entries, mirroring
`walk_entries`. -/
def walk_entries_blocks (cfg : Config) (path : String) (es : List Entry) :
    List Block :=
  match es with
  | [] => []
  | e :: rest =>
      handle_file_blocks cfg path e ++ walk_entries_blocks cfg path rest

end

/-- Eligibility of a file name exactly as the claim under test words it: the
name ends with at least one allowed extension and is not in `skip_files`. -/
def claim_file_eligible (cfg : Config) (name : String) : Bool :=
  cfg.allowed_extensions.any (fun ext => py_endswith name ext)
    && !(cfg.skip_files.contains name)

/-- Modelled from the claim wording: the depth-first list of joined paths of
the file entries that the claim says are included — name ends with an allowed
extension, name not in `skip_files`, and no ancestor directory name (below the
root) in `skip_folders` (encoded by pruning skipped directories). -/
def dfs_included_files (cfg : Config) (path : String) :
    List Entry → List String
  | [] => []
  | Entry.file name _ _ :: rest =>
      (if claim_file_eligible cfg name then [pjoin path name] else [])
        ++ dfs_included_files cfg path rest
  | Entry.dir _ none :: rest => dfs_included_files cfg path rest
  | Entry.dir name (some sub) :: rest =>
      (if cfg.skip_folders.contains name then []
       else dfs_included_files cfg (pjoin path name) sub)
        ++ dfs_included_files cfg path rest

/-- Amended version of `dfs_included_files`: a file entry is also excluded
when its own name is in `skip_folders` (the check at src/main.py line 118
applies to every entry, not only directories). -/
def dfs_included_files_amended (cfg : Config) (path : String) :
    List Entry → List String
  | [] => []
  | Entry.file name _ _ :: rest =>
      (if !(cfg.skip_folders.contains name) && claim_file_eligible cfg name
       then [pjoin path name] else [])
        ++ dfs_included_files_amended cfg path rest
  | Entry.dir _ none :: rest => dfs_included_files_amended cfg path rest
  | Entry.dir name (some sub) :: rest =>
      (if cfg.skip_folders.contains name then []
       else dfs_included_files_amended cfg (pjoin path name) sub)
        ++ dfs_included_files_amended cfg path rest

/-- Strong induction on the size of an `Entry`, used to reason about the
mutually recursive walk. -/
theorem entry_strong_ind (P : Entry → Prop)
    (h : ∀ e : Entry, (∀ x : Entry, sizeOf x < sizeOf e → P x) → P e) :
    ∀ e : Entry, P e := by
  suffices H : ∀ n : Nat, ∀ e : Entry, sizeOf e < n → P e by
    intro e
    exact H (sizeOf e + 1) e (Nat.lt_succ_self _)
  intro n
  induction n with
  | zero => intro e he; omega
  | succ n ih =>
      intro e he
      exact h e (fun x hx => ih x (by omega))

/-- Members of the listing of a directory entry are smaller than the entry. -/
theorem sizeOf_mem_listing {x : Entry} {sub : List Entry} {name : String}
    (hx : x ∈ sub) : sizeOf x < sizeOf (Entry.dir name (some sub)) := by
  have h1 := List.sizeOf_lt_of_mem hx
  simp only [Entry.dir.sizeOf_spec, Option.some.sizeOf_spec]
  omega

theorem walk_entries_link_of (cfg : Config) (m : String)
    (es : List Entry)
    (H : ∀ x ∈ es, ∀ p : String,
      handle_file cfg p x
        = (((handle_file_blocks cfg p x).map (block_lines cfg m)).flatten, none)) :
    ∀ p : String, walk_entries cfg p es
      = (((walk_entries_blocks cfg p es).map (block_lines cfg m)).flatten, none) := by
  induction es with
  | nil => intro p; simp [walk_entries, walk_entries_blocks]
  | cons e rest ihes =>
      intro p
      have he := H e (List.mem_cons_self e rest) p
      have hr := ihes (fun x hx q => H x (List.mem_cons_of_mem e hx) q) p
      simp [walk_entries, walk_entries_blocks, he, hr]

theorem handle_file_link (cfg : Config) (m : String)
    (hm : cfg.inline_comment = PyStr.str m) :
    ∀ e : Entry, ∀ p : String,
      handle_file cfg p e
        = (((handle_file_blocks cfg p e).map (block_lines cfg m)).flatten, none) := by
  intro e
  induction e using entry_strong_ind with
  | h e ih =>
      cases e with
      | file name lines rerr =>
          intro p
          by_cases h1 : name ∈ cfg.skip_folders
          · simp [handle_file, handle_file_blocks, h1]
          · by_cases h2 : go_to_next_file cfg name = true
            · simp [handle_file, handle_file_blocks, h1, h2]
            · simp [handle_file, handle_file_blocks, h1, h2, render_file, hm,
                    block_lines, read_file]
      | dir name listing =>
          intro p
          have hw : walk_directory cfg p name listing
              = (((walk_directory_blocks cfg p name listing).map
                    (block_lines cfg m)).flatten, none) := by
            cases listing with
            | none => simp [walk_directory, walk_directory_blocks]
            | some sub =>
                have := walk_entries_link_of cfg m sub
                  (fun x hx q => ih x (sizeOf_mem_listing hx) q) (pjoin p name)
                simp [walk_directory, walk_directory_blocks, this]
          by_cases h1 : name ∈ cfg.skip_folders
          · simp [handle_file, handle_file_blocks, h1]
          · by_cases h2 : go_to_next_file cfg name = true
            · simp [handle_file, handle_file_blocks, h1, h2, hw]
            · simp [handle_file, handle_file_blocks, h1, h2, hw, render_file, hm,
                    block_lines, read_file]

theorem walk_entries_link (cfg : Config) (m : String)
    (hm : cfg.inline_comment = PyStr.str m) (p : String) (es : List Entry) :
    walk_entries cfg p es
      = (((walk_entries_blocks cfg p es).map (block_lines cfg m)).flatten, none) :=
  walk_entries_link_of cfg m es (fun x _ q => handle_file_link cfg m hm x q) p

theorem claim_file_eligible_eq_not_go (cfg : Config) (name : String) :
    claim_file_eligible cfg name = !(go_to_next_file cfg name) := by
  simp [claim_file_eligible, go_to_next_file, Bool.not_or, Bool.not_not]

theorem walk_entries_blocks_dfs_of (cfg : Config) (es : List Entry)
    (H : ∀ x ∈ es, ∀ p : String,
      ((handle_file_blocks cfg p x).filter (fun b => b.isFile)).map (fun b => b.path)
        = dfs_included_files_amended cfg p [x]) :
    ∀ p : String,
      ((walk_entries_blocks cfg p es).filter (fun b => b.isFile)).map (fun b => b.path)
        = dfs_included_files_amended cfg p es := by
  induction es with
  | nil => intro p; simp [walk_entries_blocks, dfs_included_files_amended]
  | cons e rest ihes =>
      intro p
      have he := H e (List.mem_cons_self e rest) p
      have hr := ihes (fun x hx q => H x (List.mem_cons_of_mem e hx) q) p
      cases e with
      | file name lines rerr =>
          simp only [walk_entries_blocks, List.filter_append, List.map_append, hr, he]
          simp [dfs_included_files_amended]
      | dir name listing =>
          cases listing with
          | none =>
              simp only [walk_entries_blocks, List.filter_append, List.map_append, hr, he]
              simp [dfs_included_files_amended]
          | some sub =>
              simp only [walk_entries_blocks, List.filter_append, List.map_append, hr, he]
              simp [dfs_included_files_amended]

theorem handle_file_blocks_dfs (cfg : Config) :
    ∀ e : Entry, ∀ p : String,
      ((handle_file_blocks cfg p e).filter (fun b => b.isFile)).map (fun b => b.path)
        = dfs_included_files_amended cfg p [e] := by
  intro e
  induction e using entry_strong_ind with
  | h e ih =>
      cases e with
      | file name lines rerr =>
          intro p
          by_cases h1 : name ∈ cfg.skip_folders
          · simp [handle_file_blocks, dfs_included_files_amended, h1]
          · by_cases h2 : go_to_next_file cfg name = true
            · have h3 : claim_file_eligible cfg name = false := by
                rw [claim_file_eligible_eq_not_go, h2]; rfl
              simp [handle_file_blocks, dfs_included_files_amended, h1, h2, h3]
            · have h3 : claim_file_eligible cfg name = true := by
                simp only [Bool.not_eq_true] at h2
                rw [claim_file_eligible_eq_not_go, h2]
                rfl
              simp [handle_file_blocks, dfs_included_files_amended, h1, h2, h3]
      | dir name listing =>
          intro p
          cases listing with
          | none =>
              by_cases h1 : name ∈ cfg.skip_folders
              · simp [handle_file_blocks, walk_directory_blocks,
                      dfs_included_files_amended, h1]
              · simp [handle_file_blocks, walk_directory_blocks,
                      dfs_included_files_amended, h1]
          | some sub =>
              have hsub := walk_entries_blocks_dfs_of cfg sub
                (fun x hx q => ih x (sizeOf_mem_listing hx) q) (pjoin p name)
              by_cases h1 : name ∈ cfg.skip_folders
              · simp [handle_file_blocks, walk_directory_blocks,
                      dfs_included_files_amended, h1]
              · simp [handle_file_blocks, walk_directory_blocks,
                      dfs_included_files_amended, h1, hsub]

theorem walk_entries_blocks_dfs (cfg : Config) (p : String) (es : List Entry) :
    ((walk_entries_blocks cfg p es).filter (fun b => b.isFile)).map (fun b => b.path)
      = dfs_included_files_amended cfg p es :=
  walk_entries_blocks_dfs_of cfg es (fun x _ q => handle_file_blocks_dfs cfg x q) p

theorem walk_entries_empty_ext_of (cfg : Config) (es : List Entry)
    (H : ∀ x ∈ es, ∀ p : String, handle_file cfg p x = ([], none)) :
    ∀ p : String, walk_entries cfg p es = ([], none) := by
  induction es with
  | nil => intro p; simp [walk_entries]
  | cons e rest ihes =>
      intro p
      have he := H e (List.mem_cons_self e rest) p
      have hr := ihes (fun x hx q => H x (List.mem_cons_of_mem e hx) q) p
      simp [walk_entries, he, hr]

theorem handle_file_empty_ext (cfg : Config)
    (hext : cfg.allowed_extensions = []) :
    ∀ e : Entry, ∀ p : String, handle_file cfg p e = ([], none) := by
  intro e
  induction e using entry_strong_ind with
  | h e ih =>
      have hgo : ∀ name : String, go_to_next_file cfg name = true := by
        intro name; simp [go_to_next_file, hext]
      cases e with
      | file name lines rerr =>
          intro p
          by_cases h1 : name ∈ cfg.skip_folders
          · simp [handle_file, h1]
          · simp [handle_file, h1, hgo]
      | dir name listing =>
          intro p
          have hw : walk_directory cfg p name listing = ([], none) := by
            cases listing with
            | none => simp [walk_directory]
            | some sub =>
                have := walk_entries_empty_ext_of cfg sub
                  (fun x hx q => ih x (sizeOf_mem_listing hx) q) (pjoin p name)
                simp [walk_directory, this]
          by_cases h1 : name ∈ cfg.skip_folders
          · simp [handle_file, h1]
          · simp [handle_file, h1, hgo, hw]

theorem walk_entries_empty_ext (cfg : Config)
    (hext : cfg.allowed_extensions = []) (p : String) (es : List Entry) :
    walk_entries cfg p es = ([], none) :=
  walk_entries_empty_ext_of cfg es
    (fun x _ q => handle_file_empty_ext cfg hext x q) p

/-- Concrete Python-style configuration used by witnesses. -/
def cfg_py : Config :=
  ⟨["skip"], ["skip.py"], [".py"], "\"\"\"", "\"\"\"", PyStr.str "#"⟩

/-- Concrete configuration whose `skip_folders` contains a name that also
looks like an eligible file name. -/
def cfg_skipname : Config :=
  ⟨["build.py"], [], [".py"], "\"\"\"", "\"\"\"", PyStr.str "#"⟩

/-- Concrete tree used by the C1 witness. -/
def tree_c1 : List Entry :=
  [Entry.dir "skip" (some [Entry.file "b.py" ["y\n"] false]),
   Entry.file "a.py" ["x = 1\n", "# c\n"] false,
   Entry.file "skip.py" ["z\n"] false,
   Entry.file "c.txt" ["t\n"] false,
   Entry.dir "pkg" (some [Entry.file "d.py" ["d\n"] false])]

/-- Claim C1, as stated, is false on the code: a file whose own name is a
member of `skip_folders` satisfies all three conditions of the claim (allowed
extension, not in `skip_files`, no skipped ancestor directory) yet the walk
emits nothing for it, because the `skip_folders` check at src/main.py line
118 applies to every entry name. -/
theorem c1_counterexample :
    dfs_included_files cfg_skipname "root" [Entry.file "build.py" ["x\n"] false]
      = [pjoin "root" "build.py"]
    ∧ walk_entries cfg_skipname "root" [Entry.file "build.py" ["x\n"] false]
      = ([], none)
    ∧ walk_entries_blocks cfg_skipname "root" [Entry.file "build.py" ["x\n"] false]
      = [] := by
  refine ⟨?_, ?_, ?_⟩
  · simp [dfs_included_files, claim_file_eligible, cfg_skipname, py_endswith]
    decide
  · simp [walk_entries, handle_file, cfg_skipname]
  · simp [walk_entries_blocks, handle_file_blocks, cfg_skipname]

/-- Claim C1 (amended): when the inline-comment marker is a string, the walk
output is the concatenation, in depth-first listing order, of one rendered
block per rendered entry, and the rendered blocks that come from regular
files are exactly (same paths, same multiplicity, same order) the files that
end with an allowed extension, are not in `skip_files`, are not themselves
named in `skip_folders`, and have no ancestor directory in `skip_folders`. -/
theorem c1_included_files (cfg : Config) (m p : String) (es : List Entry)
    (hm : cfg.inline_comment = PyStr.str m) :
    (walk_entries cfg p es).1
      = ((walk_entries_blocks cfg p es).map (block_lines cfg m)).flatten
    ∧ ((walk_entries_blocks cfg p es).filter (fun b => b.isFile)).map
        (fun b => b.path)
      = dfs_included_files_amended cfg p es := by
  constructor
  · rw [walk_entries_link cfg m hm p es]
  · exact walk_entries_blocks_dfs cfg p es

/-- Witness for C1 at a concrete configuration and tree. -/
theorem c1_witness :
    cfg_py.inline_comment = PyStr.str "#"
    ∧ ((walk_entries cfg_py "root" tree_c1).1
        = ((walk_entries_blocks cfg_py "root" tree_c1).map
            (block_lines cfg_py "#")).flatten
       ∧ ((walk_entries_blocks cfg_py "root" tree_c1).filter
            (fun b => b.isFile)).map (fun b => b.path)
          = dfs_included_files_amended cfg_py "root" tree_c1) :=
  ⟨rfl, c1_included_files cfg_py "#" "root" tree_c1 rfl⟩

/-- Claim C2: for an included file, the emitted lines are exactly the header,
the lines of the delivered content whose left-stripped form does not start
with the marker (in original order), and the footer; a delivered line appears
in that content if and only if it is a line of the file and its left-stripped
form does not start with the marker. -/
theorem c2_line_filter (cfg : Config) (m p name : String) (lines : List String)
    (rerr : Bool) (l : String)
    (hm : cfg.inline_comment = PyStr.str m)
    (h1 : name ∉ cfg.skip_folders)
    (h2 : go_to_next_file cfg name = false) :
    (handle_file cfg p (Entry.file name lines rerr)).1
      = header_str cfg (pjoin p name)
          :: lines.filter (fun x => !is_comment_only_line m x) ++ [footer_str]
    ∧ (l ∈ lines.filter (fun x => !is_comment_only_line m x)
        ↔ l ∈ lines ∧ is_comment_only_line m l = false) := by
  constructor
  · simp [handle_file, h1, h2, render_file, hm, read_file]
  · simp [List.mem_filter]

/-- Witness for C2: with marker `#`, the line consisting of only the marker
is dropped and the line with a mid-line `#` is kept. -/
theorem c2_witness :
    ((handle_file cfg_py "root" (Entry.file "a.py" ["#\n", "x # y\n"] false)).1
      = header_str cfg_py (pjoin "root" "a.py")
          :: ["#\n", "x # y\n"].filter (fun x => !is_comment_only_line "#" x)
          ++ [footer_str]
     ∧ ("x # y\n" ∈ ["#\n", "x # y\n"].filter (fun x => !is_comment_only_line "#" x)
        ↔ "x # y\n" ∈ ["#\n", "x # y\n"]
          ∧ is_comment_only_line "#" "x # y\n" = false))
    ∧ ["#\n", "x # y\n"].filter (fun x => !is_comment_only_line "#" x)
        = ["x # y\n"] := by
  refine ⟨c2_line_filter cfg_py "#" "root" "a.py" ["#\n", "x # y\n"] false
    "x # y\n" rfl (by decide) (by decide), ?_⟩
  decide

theorem walk_directory_link (cfg : Config) (m : String)
    (hm : cfg.inline_comment = PyStr.str m) (p d : String)
    (listing : Option (List Entry)) :
    walk_directory cfg p d listing
      = (((walk_directory_blocks cfg p d listing).map
            (block_lines cfg m)).flatten, none) := by
  cases listing with
  | none => simp [walk_directory, walk_directory_blocks]
  | some sub =>
      simp [walk_directory, walk_directory_blocks,
            walk_entries_link cfg m hm (pjoin p d) sub]

/-- Claim C3: a directory entry whose name passes the file-eligibility test is
both recursively walked — all its descendant lines come first — and then
rendered itself as a file, contributing an empty-content block (header
followed directly by the footer, since reading a directory delivers no
lines). -/
theorem c3_dir_rendered (cfg : Config) (m p name : String)
    (listing : Option (List Entry))
    (hm : cfg.inline_comment = PyStr.str m)
    (h1 : name ∉ cfg.skip_folders)
    (h2 : go_to_next_file cfg name = false) :
    handle_file cfg p (Entry.dir name listing)
      = ((walk_directory cfg p name listing).1
          ++ [header_str cfg (pjoin p name), footer_str], none) := by
  simp [handle_file, h1, h2, render_file, hm, read_file,
        walk_directory_link cfg m hm p name listing]

/-- Witness for C3: a directory literally named `sub.py` is recursed into and
then rendered as a file. -/
theorem c3_witness :
    cfg_py.inline_comment = PyStr.str "#"
    ∧ handle_file cfg_py "root"
        (Entry.dir "sub.py" (some [Entry.file "in.py" ["v\n"] false]))
      = ((walk_directory cfg_py "root" "sub.py"
            (some [Entry.file "in.py" ["v\n"] false])).1
          ++ [header_str cfg_py (pjoin "root" "sub.py"), footer_str], none) :=
  ⟨rfl, c3_dir_rendered cfg_py "#" "root" "sub.py"
    (some [Entry.file "in.py" ["v\n"] false]) rfl (by decide) (by decide)⟩

/-- Claim C4: when the marker is a string, the whole walk output is the
concatenation of per-entry blocks in traversal order (no interleaving), and
each block is exactly a fenced open line, the block-comment open token, a
`file:` line with the path, the block-comment close token (all inside the
single header string), the filtered content lines in original order, then a
newline plus fence close plus blank line (the single footer string). -/
theorem c4_block_format (cfg : Config) (m p : String) (es : List Entry)
    (b : Block) (hm : cfg.inline_comment = PyStr.str m) :
    (walk_entries cfg p es).1
      = ((walk_entries_blocks cfg p es).map (block_lines cfg m)).flatten
    ∧ block_lines cfg m b
      = header_str cfg b.path
          :: b.raw.filter (fun l => !is_comment_only_line m l) ++ [footer_str]
    ∧ header_str cfg b.path
      = "```\n" ++ cfg.block_comment_open ++ "\nfile: " ++ b.path ++ "\n"
          ++ cfg.block_comment_close ++ "\n"
    ∧ footer_str = "\n```\n\n" := by
  refine ⟨?_, rfl, rfl, rfl⟩
  rw [walk_entries_link cfg m hm p es]

/-- Witness for C4 at a concrete configuration, tree and block. -/
theorem c4_witness :
    cfg_py.inline_comment = PyStr.str "#"
    ∧ ((walk_entries cfg_py "root" tree_c1).1
        = ((walk_entries_blocks cfg_py "root" tree_c1).map
            (block_lines cfg_py "#")).flatten
       ∧ block_lines cfg_py "#" ⟨"root/a.py", ["x = 1\n", "# c\n"], true⟩
          = header_str cfg_py "root/a.py"
              :: ["x = 1\n", "# c\n"].filter (fun l => !is_comment_only_line "#" l)
              ++ [footer_str]
       ∧ header_str cfg_py "root/a.py"
          = "```\n" ++ cfg_py.block_comment_open ++ "\nfile: " ++ "root/a.py"
              ++ "\n" ++ cfg_py.block_comment_close ++ "\n"
       ∧ footer_str = "\n```\n\n") :=
  ⟨rfl, c4_block_format cfg_py "#" "root" tree_c1
    ⟨"root/a.py", ["x = 1\n", "# c\n"], true⟩ rfl⟩

/-- Concrete configuration whose `inline_comment` is not a string. -/
def cfg_nonstr : Config :=
  ⟨[], [], [".py"], "/*", "*/", PyStr.nonStr⟩

/-- Claim C5, as stated, is false on the code: for a file whose open fails
(no lines delivered, read error flagged) the renderer does not terminate its
header/content/footer sequence early — the footer is still emitted after the
header, because `read_file` catches the `IOError` itself and `handle_file`
continues to its final yield. -/
theorem c5_counterexample :
    handle_file cfg_py "root" (Entry.file "broken.py" [] true)
      = ([header_str cfg_py (pjoin "root" "broken.py"), footer_str], none)
    ∧ footer_str ∈ (handle_file cfg_py "root" (Entry.file "broken.py" [] true)).1 := by
  have h : handle_file cfg_py "root" (Entry.file "broken.py" [] true)
      = ([header_str cfg_py (pjoin "root" "broken.py"), footer_str], none) := by
    simp [handle_file, cfg_py, render_file, read_file]
    decide
  exact ⟨h, by rw [h]; simp⟩

/-- Claim C5 (amended): when a file fails to open or fails mid-stream, the
delivered lines are a prefix of the content; the rendered sequence keeps the
already-emitted header and the filtered partial content (nothing is rolled
back), still ends with the footer, and traversal of the sibling entries
continues unaffected. -/
theorem c5_read_error (cfg : Config) (m p name : String) (full : List String)
    (k : Nat) (es : List Entry)
    (hm : cfg.inline_comment = PyStr.str m)
    (h1 : name ∉ cfg.skip_folders)
    (h2 : go_to_next_file cfg name = false) :
    handle_file cfg p (Entry.file name (full.take k) true)
      = (header_str cfg (pjoin p name)
          :: (full.take k).filter (fun l => !is_comment_only_line m l)
          ++ [footer_str], none)
    ∧ (∃ t, full.filter (fun l => !is_comment_only_line m l)
        = (full.take k).filter (fun l => !is_comment_only_line m l) ++ t)
    ∧ (walk_entries cfg p (Entry.file name (full.take k) true :: es)).1
        = (handle_file cfg p (Entry.file name (full.take k) true)).1
          ++ (walk_entries cfg p es).1 := by
  have hh : handle_file cfg p (Entry.file name (full.take k) true)
      = (header_str cfg (pjoin p name)
          :: (full.take k).filter (fun l => !is_comment_only_line m l)
          ++ [footer_str], none) := by
    simp [handle_file, h1, h2, render_file, hm, read_file]
  refine ⟨hh, ⟨(full.drop k).filter (fun l => !is_comment_only_line m l), ?_⟩, ?_⟩
  · rw [← List.filter_append, List.take_append_drop]
  · simp [walk_entries, hh]

/-- Witness for C5: a file delivering one of its two lines before failing. -/
theorem c5_witness :
    cfg_py.inline_comment = PyStr.str "#"
    ∧ (handle_file cfg_py "root"
        (Entry.file "a.py" (["p\n", "q\n"].take 1) true)
      = (header_str cfg_py (pjoin "root" "a.py")
          :: (["p\n", "q\n"].take 1).filter (fun l => !is_comment_only_line "#" l)
          ++ [footer_str], none)
    ∧ (∃ t, ["p\n", "q\n"].filter (fun l => !is_comment_only_line "#" l)
        = (["p\n", "q\n"].take 1).filter (fun l => !is_comment_only_line "#" l) ++ t)
    ∧ (walk_entries cfg_py "root"
        (Entry.file "a.py" (["p\n", "q\n"].take 1) true
          :: [Entry.file "s.py" ["w\n"] false])).1
        = (handle_file cfg_py "root" (Entry.file "a.py" (["p\n", "q\n"].take 1) true)).1
          ++ (walk_entries cfg_py "root" [Entry.file "s.py" ["w\n"] false]).1) :=
  ⟨rfl, c5_read_error cfg_py "#" "root" "a.py" ["p\n", "q\n"] 1
    [Entry.file "s.py" ["w\n"] false] rfl (by decide) (by decide)⟩

/-- Claim C6, as stated, is false on the code: the `inline_comment` type
check at src/main.py lines 139-140 runs inside `handle_file` after the
header of the first eligible file has been yielded, so the resulting fatal
`TypeError` does not abort the run before traversal output is produced. -/
theorem c6_counterexample :
    walk_entries cfg_nonstr "root" [Entry.file "a.py" ["x\n"] false]
      = ([header_str cfg_nonstr (pjoin "root" "a.py")], some MergeErr.typeError)
    ∧ (walk_entries cfg_nonstr "root" [Entry.file "a.py" ["x\n"] false]).1 ≠ [] := by
  have h : walk_entries cfg_nonstr "root" [Entry.file "a.py" ["x\n"] false]
      = ([header_str cfg_nonstr (pjoin "root" "a.py")], some MergeErr.typeError) := by
    simp [walk_entries, handle_file, cfg_nonstr, render_file]
    decide
  exact ⟨h, by rw [h]; simp⟩

/-- Claim C6 (amended): a non-string `inline_comment` raises a fatal
`TypeError` that stops the traversal, but only when the first eligible entry
is rendered and only after that entry's header has been yielded: the output
produced up to the abort ends with that header, and the sibling entries after
the failing one contribute nothing. -/
theorem c6_inline_type_error (cfg : Config) (p name : String)
    (lines : List String) (rerr : Bool) (es : List Entry)
    (hm : cfg.inline_comment = PyStr.nonStr)
    (h1 : name ∉ cfg.skip_folders)
    (h2 : go_to_next_file cfg name = false) :
    walk_entries cfg p (Entry.file name lines rerr :: es)
      = ([header_str cfg (pjoin p name)], some MergeErr.typeError) := by
  have hh : handle_file cfg p (Entry.file name lines rerr)
      = ([header_str cfg (pjoin p name)], some MergeErr.typeError) := by
    simp [handle_file, h1, h2, render_file, hm]
  simp [walk_entries, hh]

/-- Witness for C6: a sibling file follows the failing one and is never
reached. -/
theorem c6_witness :
    cfg_nonstr.inline_comment = PyStr.nonStr
    ∧ walk_entries cfg_nonstr "root"
        (Entry.file "a.py" ["x\n"] false :: [Entry.file "b.py" ["y\n"] false])
      = ([header_str cfg_nonstr (pjoin "root" "a.py")], some MergeErr.typeError) :=
  ⟨rfl, c6_inline_type_error cfg_nonstr "root" "a.py" ["x\n"] false
    [Entry.file "b.py" ["y\n"] false] rfl (by decide) (by decide)⟩

/-- Concrete configuration with an empty inline-comment marker. -/
def cfg_emptymarker : Config :=
  ⟨[], [], [".py"], "/*", "*/", PyStr.str ""⟩

/-- Concrete configuration with no allowed extensions. -/
def cfg_noext : Config :=
  ⟨[], [], [], "/*", "*/", PyStr.str "#"⟩

/-- Claim C7: a directory whose listing fails contributes nothing — the walk
of that directory yields no lines and no error — and a sibling list
continues exactly as if the unlistable directory (with a normal directory
name, one that is not file-eligible) were absent. -/
theorem c7_unlistable_dir (cfg : Config) (p d : String) (es : List Entry)
    (hgo : go_to_next_file cfg d = true) :
    walk_directory cfg p d none = ([], none)
    ∧ walk_entries cfg p (Entry.dir d none :: es) = walk_entries cfg p es := by
  have hh : handle_file cfg p (Entry.dir d none) = ([], none) := by
    by_cases h1 : d ∈ cfg.skip_folders
    · simp [handle_file, h1]
    · simp [handle_file, h1, walk_directory, hgo]
  refine ⟨by simp [walk_directory], ?_⟩
  simp [walk_entries, hh]

/-- Witness for C7: the unlistable `locked` directory is skipped and the
sibling file is still merged. -/
theorem c7_witness :
    go_to_next_file cfg_py "locked" = true
    ∧ (walk_directory cfg_py "root" "locked" none = ([], none)
       ∧ walk_entries cfg_py
          (pjoin "root" "proj") (Entry.dir "locked" none
            :: [Entry.file "a.py" ["x\n"] false])
        = walk_entries cfg_py (pjoin "root" "proj")
            [Entry.file "a.py" ["x\n"] false]) :=
  ⟨by decide, c7_unlistable_dir cfg_py (pjoin "root" "proj") "locked"
    [Entry.file "a.py" ["x\n"] false] (by decide)⟩

/-- Claim C8: an entry whose name is in `skip_folders` contributes nothing,
whether it is a directory or a regular file — even a file whose name ends
with an allowed extension and is not in `skip_files` — because the
`skip_folders` membership test at src/main.py line 118 runs on every entry
before the directory check. -/
theorem c8_skip_folders_every_entry (cfg : Config) (p name : String)
    (lines : List String) (rerr : Bool) (listing : Option (List Entry))
    (h : name ∈ cfg.skip_folders) :
    handle_file cfg p (Entry.file name lines rerr) = ([], none)
    ∧ handle_file cfg p (Entry.dir name listing) = ([], none) := by
  constructor
  · simp [handle_file, h]
  · simp [handle_file, h]

/-- Witness for C8: the name `build.py` is extension-eligible and not in
`skip_files`, yet both a file and a directory of that name are dropped. -/
theorem c8_witness :
    "build.py" ∈ cfg_skipname.skip_folders
    ∧ (handle_file cfg_skipname "root" (Entry.file "build.py" ["x\n"] false)
        = ([], none)
       ∧ handle_file cfg_skipname "root"
          (Entry.dir "build.py" (some [Entry.file "c.py" ["y\n"] false]))
        = ([], none)) :=
  ⟨by decide, c8_skip_folders_every_entry cfg_skipname "root" "build.py"
    ["x\n"] false (some [Entry.file "c.py" ["y\n"] false]) (by decide)⟩

/-- Left-stripping and testing against the empty marker always succeeds, so
with an empty inline-comment marker every line is a comment-only line. -/
theorem is_comment_only_line_empty (l : String) :
    is_comment_only_line "" l = true := by
  simp [is_comment_only_line, py_startswith]

/-- Claim C9: with an empty-string inline-comment marker, every content line
of an included file is dropped, so the file's output is its header directly
followed by its footer. -/
theorem c9_empty_marker (cfg : Config) (p name : String) (lines : List String)
    (rerr : Bool)
    (hm : cfg.inline_comment = PyStr.str "")
    (h1 : name ∉ cfg.skip_folders)
    (h2 : go_to_next_file cfg name = false) :
    (handle_file cfg p (Entry.file name lines rerr)).1
      = [header_str cfg (pjoin p name), footer_str] := by
  have hf : lines.filter (fun l => !is_comment_only_line "" l) = [] := by
    apply List.filter_eq_nil_iff.mpr
    intro a _
    simp [is_comment_only_line_empty]
  simp [handle_file, h1, h2, render_file, hm, read_file, hf]

/-- Witness for C9 on a file with nonempty, non-comment content. -/
theorem c9_witness :
    cfg_emptymarker.inline_comment = PyStr.str ""
    ∧ (handle_file cfg_emptymarker "root"
        (Entry.file "a.py" ["x = 1\n", "y = 2\n"] false)).1
      = [header_str cfg_emptymarker (pjoin "root" "a.py"), footer_str] :=
  ⟨rfl, c9_empty_marker cfg_emptymarker "root" "a.py" ["x = 1\n", "y = 2\n"]
    false rfl (by decide) (by decide)⟩

/-- Claim C10: with an empty `allowed_extensions` list no entry is ever
file-eligible, so walking any sibling list produces no output lines at all
(and no error), though directories are still traversed. -/
theorem c10_no_extensions (cfg : Config) (p : String) (es : List Entry)
    (hext : cfg.allowed_extensions = []) :
    walk_entries cfg p es = ([], none) :=
  walk_entries_empty_ext cfg hext p es

/-- Witness for C10 on a tree with files and a nested directory. -/
theorem c10_witness :
    cfg_noext.allowed_extensions = []
    ∧ walk_entries cfg_noext "root"
        [Entry.file "a.py" ["x\n"] false,
         Entry.dir "pkg" (some [Entry.file "b.py" ["y\n"] false])]
      = ([], none) :=
  ⟨rfl, c10_no_extensions cfg_noext "root"
    [Entry.file "a.py" ["x\n"] false,
     Entry.dir "pkg" (some [Entry.file "b.py" ["y\n"] false])] rfl⟩

end ProjectToSingleFile
